import Mathlib

/-
  Verification development for the tmux-session-picker list controller
  (Go package "model", file internal/model/model.go in the sources).

  The controller state (Model), its event step function (Update/handleKey and
  the action helpers expandCurrent, collapseCurrent, selectCurrent,
  confirmKill, killCurrent, createSession, handleJump, rebuildItems,
  fuzzyMatch) are embedded shallowly below.  Go strings are embedded as byte
  lists (Go strings are byte sequences; the filter is truncated bytewise by
  backspace, so a byte-level model is required for faithfulness).  External
  collaborators (the tmux package, the key map of the ui package, the
  textinput widget) are not part of the sources; calls into tmux are modelled
  by an environment of oracles whose invocations are recorded in an effect
  trace, and the key map is modelled as one abstract key per key role, as the
  specification describes them.
-/

set_option maxHeartbeats 1000000

namespace Tsm

/-- A Go string: a sequence of bytes (Go strings are byte slices; indexing and
length in the source are bytewise). -/
abbrev GoStr := List Nat

/-- Standard UTF-8 encoding of one code point, as Go produces when a typed
rune is appended to a string. -/
def utf8Encode (c : Char) : List Nat :=
  let n := c.toNat
  if n < 128 then [n]
  else if n < 2048 then [192 + n / 64, 128 + n % 64]
  else if n < 65536 then [224 + n / 4096, 128 + n / 64 % 64, 128 + n % 64]
  else [240 + n / 262144, 128 + n / 4096 % 64, 128 + n / 64 % 64, 128 + n % 64]

/-- The bytes of a Lean string literal, used to write concrete Go strings. -/
def strBytes (s : String) : GoStr := (s.data.map utf8Encode).flatten

/-- Byte-level case folding: models strings.ToLower of the Go standard
library on the ASCII range (all names and filters in the claims are ASCII;
non-ASCII Unicode case mappings are outside the modelled range and are left
unchanged). -/
def asciiLower (s : GoStr) : GoStr :=
  s.map (fun b => if 65 ≤ b ∧ b ≤ 90 then b + 32 else b)

/-- Bytewise starts-with test (first argument is the pattern). -/
def isPre : GoStr → GoStr → Bool
  | [], _ => true
  | _ :: _, [] => false
  | a :: as, b :: bs => a == b && isPre as bs

/-- Bytewise substring test: models strings.Contains of the Go standard
library (second argument is the pattern). -/
def containsBytes : GoStr → GoStr → Bool
  | [], pat => pat == []
  | a :: t, pat => isPre pat (a :: t) || containsBytes t pat

/-- ASCII whitespace bytes, the ASCII part of what strings.TrimSpace trims. -/
def isSpaceByte (b : Nat) : Bool :=
  b == 32 || b == 9 || b == 10 || b == 11 || b == 12 || b == 13

/-- Models strings.TrimSpace on the ASCII range (claims only involve ASCII
input text). -/
def trimBytes (s : GoStr) : GoStr :=
  ((s.dropWhile isSpaceByte).reverse.dropWhile isSpaceByte).reverse

/-- Decimal rendering of a natural number, as Go fmt with verb d produces. -/
def natBytes (n : Nat) : GoStr := (Nat.toDigits 10 n).map Char.toNat

/-- Decimal rendering of a Go int. -/
def intBytes (i : Int) : GoStr :=
  if i < 0 then 45 :: natBytes (-i).toNat else natBytes i.toNat

/-- A tmux window: index (unique within the session, not necessarily
contiguous) and display name.  Mirrors tmux.Window as used by the model. -/
structure Window where
  index : Int
  name : GoStr
deriving DecidableEq

/-- A tmux session as held by the controller: name, last-activity timestamp,
expansion flag and the lazily loaded window list.  Mirrors tmux.Session as
used by the model. -/
structure Session where
  name : GoStr
  lastActivity : Int
  expanded : Bool
  windows : List Window
deriving DecidableEq

/-- One flattened row: either the session at position sessionIndex of the
sessions slice, or the window at position windowIndex of that session.
Mirrors the Item struct. -/
structure Item where
  isSession : Bool
  sessionIndex : Nat
  windowIndex : Nat
deriving DecidableEq

/-- The three UI modes.  Mirrors the Mode constants. -/
inductive Mode
  | normal
  | confirmKill
  | create
deriving DecidableEq

/-- The controller state.  Mirrors the Model struct; the fields
claudeStatuses, lastKeyTime, lastKey (rendering only or unused) and the
embedded config (consulted only by the fire-and-forget layout side effect,
modelled through the environment) are omitted, and the textinput widget is
represented by its text value. -/
structure Model where
  sessions : List Session
  currentSession : GoStr
  cursor : Int
  items : List Item
  mode : Mode
  message : GoStr
  messageIsError : Bool
  input : GoStr
  killTarget : GoStr
  filter : GoStr
  maxNameWidth : Nat
deriving DecidableEq

/-- Modelled from the spec: the key roles of the key map (ui.DefaultKeyMap is
not in the sources).  One abstract constructor per key role; jump carries the
digit of the pressed key "1".."9"; runes carries the UTF-8 bytes of typed
text as Go string(msg.Runes) produces them. -/
inductive Key
  | quit
  | cancel
  | up
  | down
  | expand
  | collapse
  | select
  | kill
  | createKey
  | confirm
  | enter
  | backspace
  | jump (d : Nat)
  | runes (bs : GoStr)
  | other
deriving DecidableEq

/-- Modelled from the spec: a session as delivered by a data-fetch result
(tmux.ListSessions is not in the sources).  Per the data model section it
carries a name and a last-activity timestamp; the expansion flag defaults to
false and the window list is empty until first expansion. -/
structure FetchedSession where
  name : GoStr
  lastActivity : Int
deriving DecidableEq

/-- Modelled from the spec: a freshly fetched session enters the controller
collapsed and with no cached windows. -/
def FetchedSession.toSession (f : FetchedSession) : Session :=
  { name := f.name, lastActivity := f.lastActivity, expanded := false, windows := [] }

/-- The events entering Update: a data-fetch result, an error from a fetch, a
message-clear tick, or a key press. -/
inductive Ev
  | sessionsMsg (fetched : List FetchedSession)
  | errMsg (e : GoStr)
  | clearMessageMsg
  | key (k : Key)
deriving DecidableEq

/-- External calls issued synchronously by the handlers (the tmux package and
the layout script), recorded as a trace. -/
inductive Eff
  | fetchWindows (session : GoStr)
  | switch (target : GoStr)
  | killSession (name : GoStr)
  | killWindow (session : GoStr) (index : Int)
  | create (name : GoStr) (dir : GoStr)
  | layout (name : GoStr) (dir : GoStr)
deriving DecidableEq

/-- The tea commands a handler returns: quit, a session reload, the delayed
message clear (seconds), or the input-cursor blink. -/
inductive TCmd
  | quit
  | loadSessions
  | clearAfter (secs : Nat)
  | blink
deriving DecidableEq

/-- The environment of external collaborators: the HOME directory, the
results of the synchronous tmux calls (none means success, some carries the
error text), and whether a layout script is configured and present. -/
structure Env where
  home : GoStr
  listWindows : GoStr → Except GoStr (List Window)
  switchClient : GoStr → Option GoStr
  killSession : GoStr → Option GoStr
  killWindow : GoStr → Int → Option GoStr
  createSession : GoStr → GoStr → Option GoStr
  layoutReady : Bool

/-- Mirrors fuzzyMatch: lowercase the text and test for the (already
lowercased) pattern as a substring. -/
def fuzzyMatch (text pattern : GoStr) : Bool :=
  containsBytes (asciiLower text) pattern

/-- Mirrors the loop body of rebuildItems: walk the sessions from position i,
skip a session when a filter is active and fuzzyMatch fails, otherwise emit
its session row followed, when it is expanded, by one window row per stored
window. -/
def buildItemsFrom (flt fl : GoStr) : List Session → Nat → List Item
  | [], _ => []
  | s :: rest, i =>
    if flt ≠ [] ∧ fuzzyMatch s.name fl = false then
      buildItemsFrom flt fl rest (i + 1)
    else
      (Item.mk true i 0 ::
        (if s.expanded then
          (List.range s.windows.length).map (fun j => Item.mk false i j)
        else [])) ++ buildItemsFrom flt fl rest (i + 1)

/-- Mirrors the item construction of rebuildItems (the filter is lowercased
once, as in the source). -/
def buildItems (sessions : List Session) (flt : GoStr) : List Item :=
  buildItemsFrom flt (asciiLower flt) sessions 0

/-- Mirrors the cursor clamp at the end of rebuildItems: first pull a
too-large cursor down to length - 1, then pull a negative cursor up to 0. -/
def clampCursor (c : Int) (len : Nat) : Int :=
  let c1 := if (len : Int) ≤ c then (len : Int) - 1 else c
  if c1 < 0 then 0 else c1

/-- Mirrors rebuildItems: recompute the flattened rows from the current
sessions and filter, then re-clamp the cursor. -/
def rebuild (m : Model) : Model :=
  { m with
      items := buildItems m.sessions m.filter,
      cursor := clampCursor m.cursor (buildItems m.sessions m.filter).length }

/-- Mirrors calculateColumnWidths. -/
def calcWidths (m : Model) : Model :=
  { m with
      maxNameWidth :=
        m.sessions.foldl (fun acc s => if acc < s.name.length then s.name.length else acc) 0 }

/-- Mirrors expandCurrent: on a session row, collapse every session, load the
window list when empty (a failed load leaves the stale items in place), mark
the target expanded and rebuild.  Out-of-range indices (which would panic in
Go and cannot occur in reachable states, because items are rebuilt on every
change to sessions) are modelled as no-ops. -/
def expandCurrent (m : Model) (env : Env) : Model × List Eff :=
  if m.cursor < 0 ∨ (m.items.length : Int) ≤ m.cursor then (m, [])
  else
    match m.items.get? m.cursor.toNat with
    | none => (m, [])
    | some item =>
      if item.isSession = false then (m, [])
      else
        let collapsed := m.sessions.map (fun s => { s with expanded := false })
        match collapsed.get? item.sessionIndex with
        | none => (m, [])
        | some s =>
          if s.windows.isEmpty then
            match env.listWindows s.name with
            | .error e =>
              ({ m with
                  sessions := collapsed,
                  message := strBytes "Error loading windows: " ++ e,
                  messageIsError := true },
               [Eff.fetchWindows s.name])
            | .ok ws =>
              (rebuild
                { m with
                    sessions := collapsed.set item.sessionIndex
                      { s with windows := ws, expanded := true } },
               [Eff.fetchWindows s.name])
          else
            (rebuild
              { m with
                  sessions := collapsed.set item.sessionIndex { s with expanded := true } },
             [])

/-- Clear the expansion flag of the session at position i (no-op when i is
out of range, where Go would panic; unreachable in practice). -/
def setExpandedFalse (l : List Session) (i : Nat) : List Session :=
  match l.get? i with
  | some s => l.set i { s with expanded := false }
  | none => l

/-- Mirrors collapseCurrent: on a window row first move the cursor to the row
of the parent session, then clear the expansion flag of the addressed session
and rebuild. -/
def collapseCurrent (m : Model) : Model :=
  if m.cursor < 0 ∨ (m.items.length : Int) ≤ m.cursor then m
  else
    match m.items.get? m.cursor.toNat with
    | none => m
    | some item =>
      let c :=
        if item.isSession then m.cursor
        else
          match m.items.findIdx? (fun it => it.isSession && it.sessionIndex == item.sessionIndex) with
          | some i => (i : Int)
          | none => m.cursor
      rebuild { m with cursor := c, sessions := setExpandedFalse m.sessions item.sessionIndex }

/-- The switch target of a row: the session name, or name:windowIndex for a
window row. -/
def targetOf (m : Model) (item : Item) : Option GoStr :=
  match m.sessions.get? item.sessionIndex with
  | none => none
  | some s =>
    if item.isSession then some s.name
    else
      match s.windows.get? item.windowIndex with
      | none => none
      | some w => some (s.name ++ [58] ++ intBytes w.index)

/-- Mirrors selectCurrent: resolve the current row to a switch target and
call SwitchClient; success quits, failure surfaces an error message. -/
def selectCurrent (m : Model) (env : Env) : Model × List Eff × List TCmd :=
  if m.cursor < 0 ∨ (m.items.length : Int) ≤ m.cursor then (m, [], [])
  else
    match m.items.get? m.cursor.toNat with
    | none => (m, [], [])
    | some item =>
      match targetOf m item with
      | none => (m, [], [])
      | some target =>
        match env.switchClient target with
        | some e =>
          ({ m with message := strBytes "Error: " ++ e, messageIsError := true },
           [Eff.switch target], [])
        | none => (m, [Eff.switch target], [TCmd.quit])

/-- Mirrors confirmKill: capture the kill target description of the current
row and enter ConfirmKill mode. -/
def confirmKill (m : Model) : Model :=
  if m.cursor < 0 ∨ (m.items.length : Int) ≤ m.cursor then m
  else
    match m.items.get? m.cursor.toNat with
    | none => m
    | some item =>
      match m.sessions.get? item.sessionIndex with
      | none => m
      | some s =>
        if item.isSession then
          { m with
              killTarget := s.name,
              message := strBytes "Kill \"" ++ s.name ++ strBytes "\"?",
              mode := Mode.confirmKill }
        else
          match s.windows.get? item.windowIndex with
          | none => m
          | some w =>
            let tgt := s.name ++ [58] ++ intBytes w.index
            { m with
                killTarget := tgt,
                message := strBytes "Kill window \"" ++ tgt ++ strBytes "\"?",
                mode := Mode.confirmKill }

/-- Mirrors killCurrent: kill the session or window of the row under the
cursor (killTarget is not consulted), surface the outcome, return to Normal
mode, clear killTarget, and schedule a reload plus the delayed message
clear. -/
def killCurrent (m : Model) (env : Env) : Model × List Eff × List TCmd :=
  if m.cursor < 0 ∨ (m.items.length : Int) ≤ m.cursor then (m, [], [])
  else
    match m.items.get? m.cursor.toNat with
    | none => (m, [], [])
    | some item =>
      match m.sessions.get? item.sessionIndex with
      | none => (m, [], [])
      | some s =>
        if item.isSession then
          match env.killSession s.name with
          | none =>
            ({ m with
                message := strBytes "Killed \"" ++ s.name ++ strBytes "\"",
                mode := Mode.normal,
                killTarget := [] },
             [Eff.killSession s.name], [TCmd.loadSessions, TCmd.clearAfter 5])
          | some e =>
            ({ m with
                message := strBytes "Error: " ++ e,
                messageIsError := true,
                mode := Mode.normal,
                killTarget := [] },
             [Eff.killSession s.name], [TCmd.loadSessions, TCmd.clearAfter 5])
        else
          match s.windows.get? item.windowIndex with
          | none =>
            ({ m with mode := Mode.normal, killTarget := [] }, [],
             [TCmd.loadSessions, TCmd.clearAfter 5])
          | some w =>
            match env.killWindow s.name w.index with
            | none =>
              ({ m with
                  message := strBytes "Killed window " ++ intBytes w.index,
                  mode := Mode.normal,
                  killTarget := [] },
               [Eff.killWindow s.name w.index], [TCmd.loadSessions, TCmd.clearAfter 5])
            | some e =>
              ({ m with
                  message := strBytes "Error: " ++ e,
                  messageIsError := true,
                  mode := Mode.normal,
                  killTarget := [] },
               [Eff.killWindow s.name w.index], [TCmd.loadSessions, TCmd.clearAfter 5])

/-- Mirrors createSession: call CreateSession with the (already trimmed) name
and HOME; on failure surface the error and return to Normal; on success run
the fire-and-forget layout script when configured, then SwitchClient; a
successful switch quits, a failed switch surfaces an error (leaving the mode
as it was) and schedules a reload. -/
def createSessionM (m : Model) (env : Env) (name : GoStr) : Model × List Eff × List TCmd :=
  match env.createSession name env.home with
  | some e =>
    ({ m with message := strBytes "Error: " ++ e, messageIsError := true, mode := Mode.normal },
     [Eff.create name env.home], [])
  | none =>
    let layoutEffs := if env.layoutReady then [Eff.layout name env.home] else []
    match env.switchClient name with
    | some e =>
      ({ m with
          message := strBytes "Created but failed to switch: " ++ e,
          messageIsError := true },
       Eff.create name env.home :: layoutEffs ++ [Eff.switch name], [TCmd.loadSessions])
    | none =>
      (m, Eff.create name env.home :: layoutEffs ++ [Eff.switch name], [TCmd.quit])

/-- Mirrors the session-labels block of handleJump: the digit addresses the
top-level sessions slice at position digit - 1 (Go int arithmetic); in range,
switch to that session (success quits, failure surfaces an error); out of
range, the keystroke is a no-op. -/
def jumpToSession (m : Model) (env : Env) (num : Nat) : Model × List Eff × List TCmd :=
  if 0 ≤ (num : Int) - 1 ∧ (num : Int) - 1 < (m.sessions.length : Int) then
    match m.sessions.get? ((num : Int) - 1).toNat with
    | none => (m, [], [])
    | some s =>
      match env.switchClient s.name with
      | some e =>
        ({ m with message := strBytes "Error: " ++ e, messageIsError := true },
         [Eff.switch s.name], [])
      | none => (m, [Eff.switch s.name], [TCmd.quit])
  else (m, [], [])

/-- Mirrors handleJump: when the session of the current row is expanded and
has a window whose index equals the digit, switch to that window (success
quits, failure surfaces an error); in every other case control falls through
to the session-labels block. -/
def handleJump (m : Model) (env : Env) (num : Nat) : Model × List Eff × List TCmd :=
  if m.cursor < 0 ∨ (m.items.length : Int) ≤ m.cursor then jumpToSession m env num
  else
    match m.items.get? m.cursor.toNat with
    | none => jumpToSession m env num
    | some item =>
      match m.sessions.get? item.sessionIndex with
      | none => jumpToSession m env num
      | some s =>
        if s.expanded then
          match s.windows.find? (fun w => w.index == (num : Int)) with
          | some w =>
            match env.switchClient (s.name ++ [58] ++ intBytes w.index) with
            | some e =>
              ({ m with message := strBytes "Error: " ++ e, messageIsError := true },
               [Eff.switch (s.name ++ [58] ++ intBytes w.index)], [])
            | none => (m, [Eff.switch (s.name ++ [58] ++ intBytes w.index)], [TCmd.quit])
          | none => jumpToSession m env num
        else jumpToSession m env num

/-- Mirrors handleNormalMode.  The digit keys "1".."9" are dispatched to
handleJump only while the filter is empty; with a filter active the same
keystrokes reach the KeyRunes case and their digit is appended to the filter
(byte 48 + d is the ASCII digit).  Entering Create mode clears the filter
without rebuilding, as in the source. -/
def handleNormalMode (m : Model) (env : Env) (k : Key) : Model × List Eff × List TCmd :=
  match k with
  | .quit => (m, [], [TCmd.quit])
  | .cancel =>
    if m.filter = [] then (m, [], [TCmd.quit])
    else (rebuild { m with filter := [] }, [], [])
  | .up => (if 0 < m.cursor then { m with cursor := m.cursor - 1 } else m, [], [])
  | .down =>
    (if m.cursor < (m.items.length : Int) - 1 then { m with cursor := m.cursor + 1 } else m,
     [], [])
  | .expand => ((expandCurrent m env).1, (expandCurrent m env).2, [])
  | .collapse => (collapseCurrent m, [], [])
  | .select => selectCurrent m env
  | .kill => (confirmKill m, [], [])
  | .createKey =>
    ({ m with mode := Mode.create, filter := [], input := [] }, [], [TCmd.blink])
  | .confirm => (m, [], [])
  | .enter => (m, [], [])
  | .backspace =>
    if 0 < m.filter.length then (rebuild { m with filter := m.filter.dropLast }, [], [])
    else (m, [], [])
  | .jump d =>
    if m.filter = [] then handleJump m env d
    else (rebuild { m with filter := m.filter ++ [48 + d] }, [], [])
  | .runes bs => (rebuild { m with filter := m.filter ++ bs }, [], [])
  | .other => (m, [], [])

/-- Mirrors handleConfirmKillMode: confirm runs killCurrent; cancel returns
to Normal clearing message and target; everything else is ignored. -/
def handleConfirmKillMode (m : Model) (env : Env) (k : Key) : Model × List Eff × List TCmd :=
  match k with
  | .confirm => killCurrent m env
  | .cancel =>
    ({ m with mode := Mode.normal, message := [], killTarget := [] }, [], [])
  | _ => (m, [], [])

/-- Mirrors handleCreateMode: cancel returns to Normal discarding input;
enter submits the trimmed text (empty text keeps Create mode and surfaces a
validation message); typed text reaches the text field (the textinput widget
is external, modelled as appending); control combinations and other keys are
ignored. -/
def handleCreateMode (m : Model) (env : Env) (k : Key) : Model × List Eff × List TCmd :=
  match k with
  | .cancel => ({ m with mode := Mode.normal }, [], [])
  | .enter =>
    let name := trimBytes m.input
    if name = [] then
      ({ m with message := strBytes "Session name cannot be empty", messageIsError := true },
       [], [])
    else createSessionM m env name
  | .runes bs => ({ m with input := m.input ++ bs }, [], [])
  | _ => (m, [], [])

/-- Mirrors Update plus handleKey: the three message events are handled in
any mode; key events dispatch on the current mode. -/
def step (m : Model) (ev : Ev) (env : Env) : Model × List Eff × List TCmd :=
  match ev with
  | .sessionsMsg fetched =>
    let m2 := rebuild (calcWidths { m with sessions := fetched.map FetchedSession.toSession })
    (if m2.items.isEmpty then
      { m2 with message := strBytes "No other sessions. Press c to create one." }
     else m2, [], [])
  | .errMsg e =>
    ({ m with message := strBytes "Error: " ++ e, messageIsError := true }, [], [])
  | .clearMessageMsg => ({ m with message := [], messageIsError := false }, [], [])
  | .key k =>
    match m.mode with
    | .normal => handleNormalMode m env k
    | .confirmKill => handleConfirmKillMode m env k
    | .create => handleCreateMode m env k

/-- Mirrors New: the initial controller state. -/
def initModel (cur : GoStr) : Model :=
  { sessions := [], currentSession := cur, cursor := 0, items := [], mode := Mode.normal,
    message := [], messageIsError := false, input := [], killTarget := [], filter := [],
    maxNameWidth := 0 }

/-- The flattening algorithm as the specification words it: iterate the
sessions in order, keep exactly the sessions whose name contains the filter
text as a case-insensitive substring (the empty filter matches everything),
emit the session row and, when the session is expanded, one window row per
window in stored order. -/
def rowsSpecFrom (flt : GoStr) : List Session → Nat → List Item
  | [], _ => []
  | s :: rest, i =>
    (if containsBytes (asciiLower s.name) (asciiLower flt) then
      Item.mk true i 0 ::
        (if s.expanded then
          (List.range s.windows.length).map (fun j => Item.mk false i j)
        else [])
     else []) ++ rowsSpecFrom flt rest (i + 1)

/-- The specification contract rebuild(sessions, filterText) -> Rows. -/
def rowsSpec (sessions : List Session) (flt : GoStr) : List Item :=
  rowsSpecFrom flt sessions 0

/-- The session names of the session rows of the flattened list, in order:
the visible top-level sequence. -/
def visibleNames (m : Model) : List GoStr :=
  m.items.filterMap (fun it =>
    if it.isSession then (m.sessions.get? it.sessionIndex).map (fun s => s.name) else none)

/-- A pattern is a starts-with of a byte string exactly when the string
splits as pattern followed by a rest. -/
theorem isPre_iff (p h : GoStr) : isPre p h = true ↔ ∃ r, h = p ++ r := by
  induction p generalizing h with
  | nil => simp [isPre]
  | cons a as ih =>
    cases h with
    | nil => simp [isPre]
    | cons b bs =>
      simp only [isPre, Bool.and_eq_true, beq_iff_eq, List.cons_append, List.cons.injEq, ih]
      constructor
      · rintro ⟨rfl, r, rfl⟩
        exact ⟨r, rfl, rfl⟩
      · rintro ⟨r, rfl, rfl⟩
        exact ⟨rfl, r, rfl⟩

/-- containsBytes is the literal substring test: it succeeds exactly when
the haystack splits as some bytes, the pattern, then some bytes. -/
theorem containsBytes_iff (h p : GoStr) :
    containsBytes h p = true ↔ ∃ l r, h = l ++ p ++ r := by
  induction h with
  | nil =>
    simp only [containsBytes, beq_iff_eq]
    constructor
    · rintro rfl
      exact ⟨[], [], rfl⟩
    · rintro ⟨l, r, hl⟩
      rcases List.append_eq_nil.mp (List.append_eq_nil.mp hl.symm).1 with ⟨_, h2⟩
      exact h2
  | cons a t ih =>
    simp only [containsBytes, Bool.or_eq_true, isPre_iff, ih]
    constructor
    · rintro (⟨r, hr⟩ | ⟨l, r, rfl⟩)
      · exact ⟨[], r, by simp [hr]⟩
      · exact ⟨a :: l, r, rfl⟩
    · rintro ⟨l, r, hl⟩
      cases l with
      | nil =>
        left
        exact ⟨r, by simpa using hl⟩
      | cons c l2 =>
        right
        simp only [List.cons_append, List.cons.injEq] at hl
        exact ⟨l2, r, hl.2⟩

/-- The empty pattern is contained in every byte string. -/
theorem containsBytes_nil (h : GoStr) : containsBytes h [] = true := by
  cases h <;> simp [containsBytes, isPre]

/-- The loop of rebuildItems computes exactly the rows the specification
describes, from any starting position. -/
theorem buildItemsFrom_eq (flt : GoStr) (rest : List Session) (i : Nat) :
    buildItemsFrom flt (asciiLower flt) rest i = rowsSpecFrom flt rest i := by
  induction rest generalizing i with
  | nil => rfl
  | cons s rest ih =>
    by_cases hf : flt = []
    · subst hf
      have hc : containsBytes (asciiLower s.name) (asciiLower ([] : GoStr)) = true := by
        simpa [asciiLower] using containsBytes_nil (asciiLower s.name)
      simp [buildItemsFrom, rowsSpecFrom, hc, ih]
    · by_cases hm : fuzzyMatch s.name (asciiLower flt) = true
      · have hc : containsBytes (asciiLower s.name) (asciiLower flt) = true := by
          simpa [fuzzyMatch] using hm
        simp [buildItemsFrom, rowsSpecFrom, hm, hc, hf, ih]
      · have hm2 : fuzzyMatch s.name (asciiLower flt) = false := by
          simpa using hm
        have hc : containsBytes (asciiLower s.name) (asciiLower flt) = false := by
          simpa [fuzzyMatch] using hm2
        simp [buildItemsFrom, rowsSpecFrom, hm2, hc, hf, ih]

/-- Validity of a cursor value against a row count: 0 when there are no
rows, otherwise a genuine index. -/
def cursorVal (c : Int) (len : Nat) : Prop :=
  (len = 0 ∧ c = 0) ∨ (0 < len ∧ 0 ≤ c ∧ c < (len : Int))

/-- The cursor invariant of the specification: the cursor is a valid index
into the current flattened row sequence, or 0 when the sequence is empty. -/
def CursorOk (m : Model) : Prop := cursorVal m.cursor m.items.length

instance (c : Int) (len : Nat) : Decidable (cursorVal c len) := by
  unfold cursorVal
  infer_instance

instance (m : Model) : Decidable (CursorOk m) := by
  unfold CursorOk
  infer_instance

/-- The two-step clamp of rebuildItems in closed form. -/
theorem clampCursor_eq (c : Int) (len : Nat) :
    clampCursor c len = max 0 (min c ((len : Int) - 1)) := by
  simp only [clampCursor]
  split_ifs <;> omega

/-- The clamp at the end of every rebuild restores the cursor invariant. -/
theorem cursorOk_rebuild (m : Model) : CursorOk (rebuild m) := by
  show cursorVal (clampCursor m.cursor (buildItems m.sessions m.filter).length)
    (buildItems m.sessions m.filter).length
  rw [clampCursor_eq]
  unfold cursorVal
  omega

/-- The cursor invariant only reads the cursor and the row list. -/
theorem cursorOk_congr {m1 m2 : Model} (hc : m2.cursor = m1.cursor)
    (hi : m2.items = m1.items) (h : CursorOk m1) : CursorOk m2 := by
  unfold CursorOk at h ⊢
  rw [hc, hi]
  exact h

theorem selectCurrent_ci (m : Model) (env : Env) :
    (selectCurrent m env).1.cursor = m.cursor ∧ (selectCurrent m env).1.items = m.items := by
  simp only [selectCurrent]
  repeat' split
  all_goals exact ⟨rfl, rfl⟩

theorem confirmKill_ci (m : Model) :
    (confirmKill m).cursor = m.cursor ∧ (confirmKill m).items = m.items := by
  simp only [confirmKill]
  repeat' split
  all_goals exact ⟨rfl, rfl⟩

theorem killCurrent_ci (m : Model) (env : Env) :
    (killCurrent m env).1.cursor = m.cursor ∧ (killCurrent m env).1.items = m.items := by
  simp only [killCurrent]
  repeat' split
  all_goals exact ⟨rfl, rfl⟩

theorem jumpToSession_ci (m : Model) (env : Env) (d : Nat) :
    (jumpToSession m env d).1.cursor = m.cursor ∧
      (jumpToSession m env d).1.items = m.items := by
  simp only [jumpToSession]
  repeat' split
  all_goals exact ⟨rfl, rfl⟩

theorem handleJump_ci (m : Model) (env : Env) (d : Nat) :
    (handleJump m env d).1.cursor = m.cursor ∧ (handleJump m env d).1.items = m.items := by
  simp only [handleJump]
  repeat' split
  all_goals first
  | exact ⟨rfl, rfl⟩
  | exact jumpToSession_ci m env d

theorem createSessionM_ci (m : Model) (env : Env) (name : GoStr) :
    (createSessionM m env name).1.cursor = m.cursor ∧
      (createSessionM m env name).1.items = m.items := by
  simp only [createSessionM]
  repeat' split
  all_goals exact ⟨rfl, rfl⟩

theorem cursorOk_expandCurrent (m : Model) (env : Env) (h : CursorOk m) :
    CursorOk (expandCurrent m env).1 := by
  simp only [expandCurrent]
  repeat' split
  all_goals first
  | exact h
  | exact cursorOk_rebuild _

theorem cursorOk_collapseCurrent (m : Model) (h : CursorOk m) :
    CursorOk (collapseCurrent m) := by
  simp only [collapseCurrent]
  repeat' split
  all_goals first
  | exact h
  | exact cursorOk_rebuild _

theorem cursorOk_handleNormal (m : Model) (env : Env) (k : Key) (h : CursorOk m) :
    CursorOk (handleNormalMode m env k).1 := by
  cases k with
  | quit => exact h
  | cancel =>
    simp only [handleNormalMode]
    split
    · exact h
    · exact cursorOk_rebuild _
  | up =>
    simp only [handleNormalMode]
    split
    · rename_i hc
      show cursorVal (m.cursor - 1) m.items.length
      unfold CursorOk cursorVal at h
      unfold cursorVal
      omega
    · exact h
  | down =>
    simp only [handleNormalMode]
    split
    · rename_i hc
      show cursorVal (m.cursor + 1) m.items.length
      unfold CursorOk cursorVal at h
      unfold cursorVal
      omega
    · exact h
  | expand => exact cursorOk_expandCurrent m env h
  | collapse => exact cursorOk_collapseCurrent m h
  | select => exact cursorOk_congr (selectCurrent_ci m env).1 (selectCurrent_ci m env).2 h
  | kill => exact cursorOk_congr (confirmKill_ci m).1 (confirmKill_ci m).2 h
  | createKey => exact cursorOk_congr rfl rfl h
  | confirm => exact h
  | enter => exact h
  | backspace =>
    simp only [handleNormalMode]
    split
    · exact cursorOk_rebuild _
    · exact h
  | jump d =>
    simp only [handleNormalMode]
    split
    · exact cursorOk_congr (handleJump_ci m env d).1 (handleJump_ci m env d).2 h
    · exact cursorOk_rebuild _
  | runes bs => exact cursorOk_rebuild _
  | other => exact h

theorem cursorOk_handleConfirm (m : Model) (env : Env) (k : Key) (h : CursorOk m) :
    CursorOk (handleConfirmKillMode m env k).1 := by
  cases k with
  | confirm => exact cursorOk_congr (killCurrent_ci m env).1 (killCurrent_ci m env).2 h
  | cancel => exact cursorOk_congr rfl rfl h
  | _ => exact h

theorem cursorOk_handleCreate (m : Model) (env : Env) (k : Key) (h : CursorOk m) :
    CursorOk (handleCreateMode m env k).1 := by
  cases k with
  | cancel => exact cursorOk_congr rfl rfl h
  | enter =>
    simp only [handleCreateMode]
    split
    · exact cursorOk_congr rfl rfl h
    · exact cursorOk_congr (createSessionM_ci m env _).1 (createSessionM_ci m env _).2 h
  | runes bs => exact cursorOk_congr rfl rfl h
  | _ => exact h

/-- The mutual-exclusivity invariant: at most one session carries the
expansion flag. -/
def atMostOne (m : Model) : Prop :=
  m.sessions.countP (fun s => s.expanded) ≤ 1

instance (m : Model) : Decidable (atMostOne m) := by
  unfold atMostOne
  infer_instance

theorem countP_exp_set_le (l : List Session) (i : Nat) (a : Session) :
    (l.set i a).countP (fun s => s.expanded) ≤ l.countP (fun s => s.expanded) + 1 := by
  induction l generalizing i with
  | nil => simp
  | cons b t ih =>
    cases i with
    | zero =>
      simp only [List.set_cons_zero, List.countP_cons]
      split_ifs <;> omega
    | succ j =>
      simp only [List.set_cons_succ, List.countP_cons]
      have := ih j
      split_ifs <;> omega

theorem countP_exp_set_false (l : List Session) (i : Nat) (a : Session)
    (ha : a.expanded = false) :
    (l.set i a).countP (fun s => s.expanded) ≤ l.countP (fun s => s.expanded) := by
  induction l generalizing i with
  | nil => simp
  | cons b t ih =>
    cases i with
    | zero =>
      simp only [List.set_cons_zero, List.countP_cons, ha, Bool.false_eq_true, if_false]
      split_ifs <;> omega
    | succ j =>
      simp only [List.set_cons_succ, List.countP_cons]
      have := ih j
      split_ifs <;> omega

theorem countP_exp_collapse (l : List Session) :
    (l.map (fun s => { s with expanded := false })).countP (fun s => s.expanded) = 0 := by
  induction l with
  | nil => simp
  | cons b t ih => simp [List.countP_cons, ih]

/-- After collapsing everything and expanding one position, at most one
session is expanded. -/
theorem collapse_then_set_le (l : List Session) (i : Nat) (a : Session) :
    ((l.map (fun s => { s with expanded := false })).set i a).countP
      (fun s => s.expanded) ≤ 1 := by
  have h1 := countP_exp_set_le (l.map (fun s => { s with expanded := false })) i a
  have h2 := countP_exp_collapse l
  omega

theorem collapse_le (l : List Session) :
    (l.map (fun s => { s with expanded := false })).countP (fun s => s.expanded) ≤ 1 := by
  have := countP_exp_collapse l
  omega

theorem countP_fetched (f : List FetchedSession) :
    (f.map FetchedSession.toSession).countP (fun s => s.expanded) = 0 := by
  induction f with
  | nil => simp
  | cons b t ih => simp [List.countP_cons, FetchedSession.toSession, ih]

theorem fetched_le (f : List FetchedSession) :
    (f.map FetchedSession.toSession).countP (fun s => s.expanded) ≤ 1 := by
  have := countP_fetched f
  omega

theorem setExpandedFalse_le (l : List Session) (i : Nat)
    (h : l.countP (fun s => s.expanded) ≤ 1) :
    (setExpandedFalse l i).countP (fun s => s.expanded) ≤ 1 := by
  unfold setExpandedFalse
  split
  · exact le_trans (countP_exp_set_false l i _ rfl) h
  · exact h

theorem selectCurrent_sf (m : Model) (env : Env) :
    (selectCurrent m env).1.sessions = m.sessions ∧ (selectCurrent m env).1.filter = m.filter := by
  simp only [selectCurrent]
  repeat' split
  all_goals exact ⟨rfl, rfl⟩

theorem confirmKill_sf (m : Model) :
    (confirmKill m).sessions = m.sessions ∧ (confirmKill m).filter = m.filter := by
  simp only [confirmKill]
  repeat' split
  all_goals exact ⟨rfl, rfl⟩

theorem killCurrent_sf (m : Model) (env : Env) :
    (killCurrent m env).1.sessions = m.sessions ∧ (killCurrent m env).1.filter = m.filter := by
  simp only [killCurrent]
  repeat' split
  all_goals exact ⟨rfl, rfl⟩

theorem jumpToSession_sf (m : Model) (env : Env) (d : Nat) :
    (jumpToSession m env d).1.sessions = m.sessions ∧
      (jumpToSession m env d).1.filter = m.filter := by
  simp only [jumpToSession]
  repeat' split
  all_goals exact ⟨rfl, rfl⟩

theorem handleJump_sf (m : Model) (env : Env) (d : Nat) :
    (handleJump m env d).1.sessions = m.sessions ∧
      (handleJump m env d).1.filter = m.filter := by
  simp only [handleJump]
  repeat' split
  all_goals first
  | exact ⟨rfl, rfl⟩
  | exact jumpToSession_sf m env d

theorem createSessionM_sf (m : Model) (env : Env) (name : GoStr) :
    (createSessionM m env name).1.sessions = m.sessions ∧
      (createSessionM m env name).1.filter = m.filter := by
  simp only [createSessionM]
  repeat' split
  all_goals exact ⟨rfl, rfl⟩

/-- The mutual-exclusivity invariant only reads the session list. -/
theorem atMostOne_congr {m1 m2 : Model} (hs : m2.sessions = m1.sessions)
    (h : atMostOne m1) : atMostOne m2 := by
  unfold atMostOne at h ⊢
  rw [hs]
  exact h

/-- expandCurrent collapses everything before expanding the target, so it
leaves at most one session expanded whenever it acts, and preserves the
invariant when it does not. -/
theorem atMostOne_expandCurrent (m : Model) (env : Env) (h : atMostOne m) :
    atMostOne (expandCurrent m env).1 := by
  simp only [expandCurrent]
  repeat' split
  all_goals first
  | exact h
  | exact collapse_le m.sessions
  | exact collapse_then_set_le m.sessions _ _

theorem atMostOne_collapseCurrent (m : Model) (h : atMostOne m) :
    atMostOne (collapseCurrent m) := by
  simp only [collapseCurrent]
  repeat' split
  all_goals first
  | exact h
  | exact setExpandedFalse_le m.sessions _ h

theorem atMostOne_handleNormal (m : Model) (env : Env) (k : Key) (h : atMostOne m) :
    atMostOne (handleNormalMode m env k).1 := by
  cases k with
  | quit => exact h
  | cancel =>
    simp only [handleNormalMode]
    split
    · exact h
    · exact h
  | up =>
    simp only [handleNormalMode]
    split
    · exact h
    · exact h
  | down =>
    simp only [handleNormalMode]
    split
    · exact h
    · exact h
  | expand => exact atMostOne_expandCurrent m env h
  | collapse => exact atMostOne_collapseCurrent m h
  | select => exact atMostOne_congr (selectCurrent_sf m env).1 h
  | kill => exact atMostOne_congr (confirmKill_sf m).1 h
  | createKey => exact h
  | confirm => exact h
  | enter => exact h
  | backspace =>
    simp only [handleNormalMode]
    split
    · exact h
    · exact h
  | jump d =>
    simp only [handleNormalMode]
    split
    · exact atMostOne_congr (handleJump_sf m env d).1 h
    · exact h
  | runes bs => exact h
  | other => exact h

theorem atMostOne_handleConfirm (m : Model) (env : Env) (k : Key) (h : atMostOne m) :
    atMostOne (handleConfirmKillMode m env k).1 := by
  cases k with
  | confirm => exact atMostOne_congr (killCurrent_sf m env).1 h
  | cancel => exact h
  | _ => exact h

theorem atMostOne_handleCreate (m : Model) (env : Env) (k : Key) (h : atMostOne m) :
    atMostOne (handleCreateMode m env k).1 := by
  cases k with
  | cancel => exact h
  | enter =>
    simp only [handleCreateMode]
    split
    · exact h
    · exact atMostOne_congr (createSessionM_sf m env _).1 h
  | runes bs => exact h
  | _ => exact h

/-- Mutual exclusivity is preserved by every event. -/
theorem atMostOne_step (m : Model) (ev : Ev) (env : Env) (h : atMostOne m) :
    atMostOne (step m ev env).1 := by
  cases ev with
  | sessionsMsg f =>
    simp only [step]
    split
    · exact fetched_le f
    · exact fetched_le f
  | errMsg e => exact h
  | clearMessageMsg => exact h
  | key k =>
    simp only [step]
    split
    · exact atMostOne_handleNormal m env k h
    · exact atMostOne_handleConfirm m env k h
    · exact atMostOne_handleCreate m env k h

/-- Whether a row may legitimately appear in the flattened list: session
rows always, window rows only when the parent session exists, is expanded
and passes the current filter. -/
def ParentOk (sessions : List Session) (flt : GoStr) (it : Item) : Bool :=
  if it.isSession then true
  else
    match sessions.get? it.sessionIndex with
    | none => false
    | some s => s.expanded && (flt == [] || fuzzyMatch s.name (asciiLower flt))

/-- The filter-and-expansion consistency invariant of the specification:
every window row of the flattened list sits under an expanded,
filter-passing parent. -/
def windowsConsistent (m : Model) : Bool :=
  m.items.all (ParentOk m.sessions m.filter)

/-- Whether an expand keystroke would take the failing branch: the current
row is a session whose windows are not yet loaded and the window fetch
errors. -/
def expandFails (m : Model) (env : Env) : Bool :=
  if m.cursor < 0 ∨ (m.items.length : Int) ≤ m.cursor then false
  else
    match m.items.get? m.cursor.toNat with
    | none => false
    | some item =>
      if item.isSession = false then false
      else
        match (m.sessions.map (fun s => { s with expanded := false })).get? item.sessionIndex with
        | none => false
        | some s =>
          s.windows.isEmpty &&
            (match env.listWindows s.name with
             | .error _ => true
             | .ok _ => false)

/-- Every row emitted by the rebuild loop satisfies ParentOk against the
full session list. -/
theorem parentOk_buildFrom (flt : GoStr) (all : List Session) :
    ∀ (rest : List Session) (i : Nat), all.drop i = rest →
      ∀ it ∈ buildItemsFrom flt (asciiLower flt) rest i, ParentOk all flt it = true := by
  intro rest
  induction rest with
  | nil =>
    intro i hdrop it hit
    simp [buildItemsFrom] at hit
  | cons s rest ih =>
    intro i hdrop it hit
    have hget : all.get? i = some s := by
      have h0 : (all.drop i).get? 0 = some s := by rw [hdrop]; rfl
      simpa [List.get?_drop] using h0
    have hnext : all.drop (i + 1) = rest := by
      have h0 : (all.drop i).drop 1 = rest := by rw [hdrop]; rfl
      rw [List.drop_drop] at h0
      simpa [Nat.add_comm] using h0
    simp only [buildItemsFrom] at hit
    by_cases hskip : flt ≠ [] ∧ fuzzyMatch s.name (asciiLower flt) = false
    · rw [if_pos hskip] at hit
      exact ih (i + 1) hnext it hit
    · rw [if_neg hskip] at hit
      have hpass : ((flt == []) || fuzzyMatch s.name (asciiLower flt)) = true := by
        by_cases hf : flt = []
        · simp [hf]
        · have hm : fuzzyMatch s.name (asciiLower flt) = true := by
            rcases not_and_or.mp hskip with h1 | h2
            · exact absurd hf (by simpa using h1)
            · simpa using h2
          simp [hm]
      rcases List.mem_append.mp hit with hmem | hmem
      · rcases List.mem_cons.mp hmem with rfl | hw
        · simp [ParentOk]
        · by_cases hexp : s.expanded = true
          · rw [if_pos hexp] at hw
            rcases List.mem_map.mp hw with ⟨j, hj, rfl⟩
            have hred : ParentOk all flt (Item.mk false i j) =
                match all.get? i with
                | none => false
                | some s2 => s2.expanded && (flt == [] || fuzzyMatch s2.name (asciiLower flt)) :=
              rfl
            rw [hred, hget]
            simp [hexp]
            simpa using hpass
          · rw [if_neg hexp] at hw
            simp at hw
      · exact ih (i + 1) hnext it hmem

/-- Every rebuild restores the filter-and-expansion consistency invariant. -/
theorem windowsConsistent_rebuild (m : Model) : windowsConsistent (rebuild m) = true := by
  unfold windowsConsistent
  rw [List.all_eq_true]
  intro it hit
  exact parentOk_buildFrom m.filter m.sessions m.sessions 0 rfl it hit

/-- The consistency invariant only reads the rows, sessions and filter. -/
theorem wc_congr {m1 m2 : Model} (hi : m2.items = m1.items)
    (hs : m2.sessions = m1.sessions) (hf : m2.filter = m1.filter)
    (h : windowsConsistent m1 = true) : windowsConsistent m2 = true := by
  unfold windowsConsistent at h ⊢
  rw [hi, hs, hf]
  exact h

/-- Clearing the filter keeps every legitimate row legitimate. -/
theorem parentOk_filter_nil (sessions : List Session) (flt : GoStr) (it : Item)
    (h : ParentOk sessions flt it = true) : ParentOk sessions [] it = true := by
  unfold ParentOk at h ⊢
  by_cases hi : it.isSession = true
  · simp [hi]
  · simp only [if_neg hi] at h ⊢
    match hg : sessions.get? it.sessionIndex with
    | none => rw [hg] at h; exact absurd h (by simp)
    | some s =>
      rw [hg] at h
      simp only [Bool.and_eq_true] at h
      simp [h.1]

theorem wc_createKey (m : Model) (h : windowsConsistent m = true) :
    windowsConsistent { m with mode := Mode.create, filter := [], input := [] } = true := by
  unfold windowsConsistent at h ⊢
  rw [List.all_eq_true] at h ⊢
  intro it hit
  exact parentOk_filter_nil _ _ _ (h it hit)

/-- expandCurrent preserves consistency whenever its window fetch does not
fail (it either leaves the state alone or rebuilds). -/
theorem wc_expandCurrent (m : Model) (env : Env) (h : windowsConsistent m = true)
    (hfail : expandFails m env = false) :
    windowsConsistent (expandCurrent m env).1 = true := by
  simp only [expandCurrent]
  split
  · exact h
  next hguard =>
    split
    · exact h
    next item heq1 =>
      split
      · exact h
      next hsess =>
        split
        · exact h
        next s heq2 =>
          split
          next hempty =>
            split
            next e heq3 =>
              exfalso
              have hT : expandFails m env = true := by
                simp only [expandFails, heq1, heq2, heq3, hempty, if_neg hguard,
                  if_neg hsess, Bool.and_self]
              simp [hT] at hfail
            next ws heq3 => exact windowsConsistent_rebuild _
          next hnotempty => exact windowsConsistent_rebuild _

theorem wc_collapseCurrent (m : Model) (h : windowsConsistent m = true) :
    windowsConsistent (collapseCurrent m) = true := by
  simp only [collapseCurrent]
  repeat' split
  all_goals first
  | exact h
  | exact windowsConsistent_rebuild _

theorem wc_handleNormal (m : Model) (env : Env) (k : Key)
    (h : windowsConsistent m = true)
    (hf : k = Key.expand → expandFails m env = false) :
    windowsConsistent (handleNormalMode m env k).1 = true := by
  cases k with
  | quit => exact h
  | cancel =>
    simp only [handleNormalMode]
    split
    · exact h
    · exact windowsConsistent_rebuild _
  | up =>
    simp only [handleNormalMode]
    split
    · exact h
    · exact h
  | down =>
    simp only [handleNormalMode]
    split
    · exact h
    · exact h
  | expand => exact wc_expandCurrent m env h (hf rfl)
  | collapse => exact wc_collapseCurrent m h
  | select =>
    exact wc_congr (selectCurrent_ci m env).2 (selectCurrent_sf m env).1
      (selectCurrent_sf m env).2 h
  | kill =>
    exact wc_congr (confirmKill_ci m).2 (confirmKill_sf m).1 (confirmKill_sf m).2 h
  | createKey => exact wc_createKey m h
  | confirm => exact h
  | enter => exact h
  | backspace =>
    simp only [handleNormalMode]
    split
    · exact windowsConsistent_rebuild _
    · exact h
  | jump d =>
    simp only [handleNormalMode]
    split
    · exact wc_congr (handleJump_ci m env d).2 (handleJump_sf m env d).1
        (handleJump_sf m env d).2 h
    · exact windowsConsistent_rebuild _
  | runes bs => exact windowsConsistent_rebuild _
  | other => exact h

theorem wc_handleConfirm (m : Model) (env : Env) (k : Key)
    (h : windowsConsistent m = true) :
    windowsConsistent (handleConfirmKillMode m env k).1 = true := by
  cases k with
  | confirm =>
    exact wc_congr (killCurrent_ci m env).2 (killCurrent_sf m env).1
      (killCurrent_sf m env).2 h
  | cancel => exact h
  | _ => exact h

theorem wc_handleCreate (m : Model) (env : Env) (k : Key)
    (h : windowsConsistent m = true) :
    windowsConsistent (handleCreateMode m env k).1 = true := by
  cases k with
  | cancel => exact h
  | enter =>
    simp only [handleCreateMode]
    split
    · exact h
    · exact wc_congr (createSessionM_ci m env _).2 (createSessionM_sf m env _).1
        (createSessionM_sf m env _).2 h
  | runes bs => exact h
  | _ => exact h

/-- Filter-and-expansion consistency is preserved by every event other than
an expand whose window fetch fails. -/
theorem wc_step (m : Model) (ev : Ev) (env : Env) (h : windowsConsistent m = true)
    (hf : ev = Ev.key Key.expand → m.mode = Mode.normal → expandFails m env = false) :
    windowsConsistent (step m ev env).1 = true := by
  cases ev with
  | sessionsMsg f =>
    simp only [step]
    split
    · exact wc_congr rfl rfl rfl (windowsConsistent_rebuild _)
    · exact windowsConsistent_rebuild _
  | errMsg e => exact h
  | clearMessageMsg => exact h
  | key k =>
    simp only [step]
    split
    next hmode => exact wc_handleNormal m env k h (fun hk => hf (by rw [hk]) hmode)
    next hmode => exact wc_handleConfirm m env k h
    next hmode => exact wc_handleCreate m env k h

/-- The cursor invariant is preserved by every event. -/
theorem cursorOk_step (m : Model) (ev : Ev) (env : Env) (h : CursorOk m) :
    CursorOk (step m ev env).1 := by
  cases ev with
  | sessionsMsg f =>
    simp only [step]
    split
    · exact cursorOk_congr rfl rfl (cursorOk_rebuild _)
    · exact cursorOk_rebuild _
  | errMsg e => exact cursorOk_congr rfl rfl h
  | clearMessageMsg => exact cursorOk_congr rfl rfl h
  | key k =>
    simp only [step]
    split
    · exact cursorOk_handleNormal m env k h
    · exact cursorOk_handleConfirm m env k h
    · exact cursorOk_handleCreate m env k h

theorem set_get_self {α : Type} (l : List α) (i : Nat) (a : α)
    (h : l.get? i = some a) : l.set i a = l := by
  induction l generalizing i with
  | nil => rfl
  | cons b t ih =>
    cases i with
    | zero =>
      have hb : b = a := by simpa using h
      subst hb
      rfl
    | succ j =>
      have h2 : t.get? j = some a := by simpa using h
      rw [List.set_cons_succ, ih j h2]

theorem find_some_of_mem {α : Type} (p : α → Bool) (l : List α) (w : α)
    (hw : w ∈ l) (hp : p w = true) : ∃ v, l.find? p = some v ∧ p v = true := by
  induction l with
  | nil => simp at hw
  | cons b t ih =>
    by_cases hb : p b = true
    · exact ⟨b, List.find?_cons_of_pos t hb, hb⟩
    · rcases List.mem_cons.mp hw with rfl | hmem
      · exact absurd hp hb
      · rcases ih hmem with ⟨v, hv, hpv⟩
        refine ⟨v, ?_, hpv⟩
        rw [List.find?_cons_of_neg t (by simpa using hb), hv]

/-- UTF-8 encodes an ASCII code point as its single byte. -/
theorem utf8Encode_ascii (c : Char) (h : c.toNat < 128) : utf8Encode c = [c.toNat] := by
  simp [utf8Encode, h]

/-- The byte string of a sequence of code points. -/
def utf8Str (cs : List Char) : GoStr := (cs.map utf8Encode).flatten

theorem utf8Str_ascii (cs : List Char) (h : ∀ c ∈ cs, c.toNat < 128) :
    utf8Str cs = cs.map Char.toNat := by
  induction cs with
  | nil => rfl
  | cons c t ih =>
    have hc := utf8Encode_ascii c (h c (by simp))
    have ht := ih (fun x hx => h x (by simp [hx]))
    simp [utf8Str, hc] at ht ⊢
    exact ht

/-- On ASCII-only text, dropping the last byte is dropping the last
character. -/
theorem utf8Str_ascii_dropLast (cs : List Char) (h : ∀ c ∈ cs, c.toNat < 128) :
    (utf8Str cs).dropLast = utf8Str cs.dropLast := by
  rw [utf8Str_ascii cs h,
    utf8Str_ascii cs.dropLast (fun c hc => h c (List.dropLast_subset cs hc)),
    List.map_dropLast]

/- Concrete fixtures used by witnesses and counterexamples. -/

/-- Environment in which every external call succeeds and no layout script
is configured. -/
def envOk : Env :=
  { home := [], listWindows := fun _ => Except.ok [], switchClient := fun _ => none,
    killSession := fun _ => none, killWindow := fun _ _ => none,
    createSession := fun _ _ => none, layoutReady := false }

/-- Environment whose window fetch fails. -/
def envFetchFail : Env := { envOk with listWindows := fun _ => Except.error (strBytes "boom") }

/-- Environment whose switch call fails. -/
def envSwitchFail : Env := { envOk with switchClient := fun _ => some (strBytes "no client") }

def alphaSession : Session :=
  { name := strBytes "alpha", lastActivity := 0, expanded := false, windows := [] }

def betaSession : Session :=
  { name := strBytes "beta", lastActivity := 0, expanded := false, windows := [] }

def gammaSession : Session :=
  { name := strBytes "gamma", lastActivity := 0, expanded := false, windows := [] }

/-- An expanded session whose window indices are the non-contiguous set
1, 3, 4 of the jump-determinism scenario. -/
def alphaExpanded : Session :=
  { name := strBytes "alpha", lastActivity := 0, expanded := true,
    windows := [⟨1, strBytes "edit"⟩, ⟨3, strBytes "run"⟩, ⟨4, strBytes "logs"⟩] }

def aExpanded : Session :=
  { name := strBytes "a", lastActivity := 0, expanded := true,
    windows := [⟨1, strBytes "w"⟩] }

def bEmpty : Session :=
  { name := strBytes "b", lastActivity := 0, expanded := false, windows := [] }

def c1m : Model := rebuild { initModel [] with sessions := [alphaSession, betaSession], cursor := 1 }

def c3m : Model := rebuild { initModel [] with sessions := [alphaSession, betaSession] }

def c4m : Model := rebuild { initModel [] with sessions := [alphaExpanded] }

def c5m : Model := rebuild { initModel [] with sessions := [aExpanded, bEmpty], cursor := 2 }

def c6m : Model := { initModel [] with mode := Mode.create, input := strBytes "x" }

def c6empty : Model := { initModel [] with mode := Mode.create, input := strBytes "   " }

def c7m : Model :=
  rebuild { initModel [] with sessions := [alphaSession, betaSession, gammaSession],
                              filter := strBytes "a" }

def c7e : Model :=
  rebuild { initModel [] with sessions := [alphaSession, betaSession, gammaSession] }

def c8m : Model := rebuild { initModel [] with sessions := [alphaSession], mode := Mode.confirmKill }

def c8w : Model := rebuild { initModel [] with sessions := [alphaSession] }

def eAcute : Char := 'é'

def c9m : Model := { initModel [] with filter := utf8Str [eAcute] }

def c10m : Model := rebuild { initModel [] with sessions := [alphaSession, betaSession], cursor := 1 }

/-- The state after requesting a kill on the row of beta. -/
def c10s1 : Model := (step c10m (Ev.key Key.kill) envOk).1

/-- The state after a data refresh, arriving while the confirmation is
pending, has removed beta. -/
def c10s2 : Model := (step c10s1 (Ev.sessionsMsg [⟨strBytes "alpha", 0⟩]) envOk).1

/-- Claim C1: after every event processed by the controller the cursor is a
valid index into the current flattened row sequence whenever it is non-empty
and 0 when it is empty (preservation plus the initial state); Up and Down
move by exactly one row, clamped at the ends with no wraparound; and every
rebuild re-clamps an out-of-range cursor (the closed form of the two-step
clamp: too large goes to the last row, negative goes to 0). -/
theorem c1_cursor_valid :
    (∀ (m : Model) (ev : Ev) (env : Env), CursorOk m → CursorOk (step m ev env).1) ∧
    (∀ cur : GoStr, CursorOk (initModel cur)) ∧
    (∀ (m : Model) (env : Env), m.mode = Mode.normal → CursorOk m → m.items ≠ [] →
      (step m (Ev.key Key.up) env).1.cursor = max (m.cursor - 1) 0 ∧
      (step m (Ev.key Key.down) env).1.cursor = min (m.cursor + 1) ((m.items.length : Int) - 1)) ∧
    (∀ m : Model,
      (rebuild m).cursor =
        max 0 (min m.cursor (((buildItems m.sessions m.filter).length : Int) - 1)) ∧
      CursorOk (rebuild m)) := by
  refine ⟨cursorOk_step, fun cur => Or.inl ⟨rfl, rfl⟩, ?_, ?_⟩
  · intro m env hmode h hne
    have hb : 0 ≤ m.cursor ∧ m.cursor < (m.items.length : Int) := by
      unfold CursorOk cursorVal at h
      rcases h with ⟨h0, _⟩ | ⟨_, h1, h2⟩
      · exact absurd (List.length_eq_zero.mp h0) hne
      · exact ⟨h1, h2⟩
    constructor
    · have hstep : step m (Ev.key Key.up) env =
          (if 0 < m.cursor then { m with cursor := m.cursor - 1 } else m, [], []) := by
        simp [step, hmode, handleNormalMode]
      rw [hstep]
      split
      · rename_i hc
        show m.cursor - 1 = max (m.cursor - 1) 0
        omega
      · rename_i hc
        show m.cursor = max (m.cursor - 1) 0
        omega
    · have hstep : step m (Ev.key Key.down) env =
          (if m.cursor < (m.items.length : Int) - 1 then { m with cursor := m.cursor + 1 }
           else m, [], []) := by
        simp [step, hmode, handleNormalMode]
      rw [hstep]
      split
      · rename_i hc
        show m.cursor + 1 = min (m.cursor + 1) ((m.items.length : Int) - 1)
        omega
      · rename_i hc
        show m.cursor = min (m.cursor + 1) ((m.items.length : Int) - 1)
        omega
  · intro m
    constructor
    · show clampCursor m.cursor (buildItems m.sessions m.filter).length = _
      rw [clampCursor_eq]
    · exact cursorOk_rebuild m

/-- Witness for C1 at a concrete state: two sessions, cursor on the second
row, an Up keystroke. -/
theorem c1_cursor_valid_witness :
    CursorOk ((step c1m (Ev.key Key.up) envOk).1) ∧
    (step c1m (Ev.key Key.up) envOk).1.cursor = max (c1m.cursor - 1) 0 :=
  ⟨c1_cursor_valid.1 c1m (Ev.key Key.up) envOk (by decide),
   (c1_cursor_valid.2.2.1 c1m envOk rfl (by decide) (by decide)).1⟩

/-- Claim C2: the item rebuild is a pure function of the sessions and the
filter equal to the flattening the specification describes (sessions kept in
order exactly when their name contains the filter case-insensitively, the
empty filter keeping everything; an expanded session immediately followed by
one window row per stored window, in order; nothing else); and the matcher
is a literal substring test. -/
theorem c2_rebuild_rows :
    (∀ (sessions : List Session) (flt : GoStr), buildItems sessions flt = rowsSpec sessions flt) ∧
    (∀ h p : GoStr, containsBytes h p = true ↔ ∃ l r, h = l ++ p ++ r) :=
  ⟨fun sessions flt => buildItemsFrom_eq flt sessions 0, containsBytes_iff⟩

/-- Claim C3: starting from a state with at most one expanded session, every
event leaves at most one session expanded; and an expand on a valid session
row leaves at most one session expanded regardless of how many were expanded
before, because it collapses all sessions first. -/
theorem c3_mutual_exclusion :
    (∀ (m : Model) (ev : Ev) (env : Env), atMostOne m → atMostOne (step m ev env).1) ∧
    (∀ (m : Model) (env : Env) (it : Item),
      m.mode = Mode.normal → 0 ≤ m.cursor → m.cursor < (m.items.length : Int) →
      m.items.get? m.cursor.toNat = some it → it.isSession = true →
      it.sessionIndex < m.sessions.length →
      atMostOne (step m (Ev.key Key.expand) env).1) := by
  constructor
  · exact atMostOne_step
  · intro m env it hmode h0 h1 hget hs hidx
    have hguard : ¬(m.cursor < 0 ∨ (m.items.length : Int) ≤ m.cursor) := by omega
    have hsess : ¬(it.isSession = false) := by simp [hs]
    obtain ⟨s, hs2⟩ : ∃ s,
        (m.sessions.map (fun x => { x with expanded := false })).get? it.sessionIndex = some s := by
      cases hh : (m.sessions.map (fun x => { x with expanded := false })).get? it.sessionIndex with
      | none =>
        rw [List.get?_eq_none] at hh
        simp at hh
        omega
      | some s => exact ⟨s, rfl⟩
    simp only [step, hmode, handleNormalMode, expandCurrent, if_neg hguard, hget,
      if_neg hsess, hs2]
    split
    · split
      · exact collapse_le m.sessions
      · exact collapse_then_set_le m.sessions _ _
    · exact collapse_then_set_le m.sessions _ _

/-- Witness for C3: expanding the first of two sessions. -/
theorem c3_mutual_exclusion_witness :
    atMostOne ((step c3m (Ev.key Key.expand) envOk).1) :=
  c3_mutual_exclusion.2 c3m envOk ⟨true, 0, 0⟩ rfl (by decide) (by decide) (by decide)
    (by decide) (by decide)

/-- Claim C4: a digit d pressed in Normal mode with an empty filter and a
valid cursor switches to window d of the session of the current row when that
session is expanded and has a window with index d (and the picker quits);
otherwise, when d - 1 is a valid position of the top-level session slice, it
switches to that session (and quits); otherwise the keystroke is a no-op. -/
theorem c4_jump (m : Model) (env : Env) (d : Nat) (it : Item) (s : Session)
    (hmode : m.mode = Mode.normal) (hflt : m.filter = []) (hd : 1 ≤ d)
    (h0 : 0 ≤ m.cursor) (h1 : m.cursor < (m.items.length : Int))
    (hget : m.items.get? m.cursor.toNat = some it)
    (hsget : m.sessions.get? it.sessionIndex = some s) :
    (s.expanded = true → (∃ w ∈ s.windows, w.index = (d : Int)) →
      env.switchClient (s.name ++ [58] ++ intBytes (d : Int)) = none →
      step m (Ev.key (Key.jump d)) env =
        (m, [Eff.switch (s.name ++ [58] ++ intBytes (d : Int))], [TCmd.quit])) ∧
    ((s.expanded = false ∨ (∀ w ∈ s.windows, w.index ≠ (d : Int))) →
      ∀ s2 : Session, m.sessions.get? (d - 1) = some s2 →
      env.switchClient s2.name = none →
      step m (Ev.key (Key.jump d)) env = (m, [Eff.switch s2.name], [TCmd.quit])) ∧
    ((s.expanded = false ∨ (∀ w ∈ s.windows, w.index ≠ (d : Int))) →
      m.sessions.get? (d - 1) = none →
      step m (Ev.key (Key.jump d)) env = (m, [], [])) := by
  have hstep : step m (Ev.key (Key.jump d)) env = handleJump m env d := by
    simp [step, hmode, handleNormalMode, hflt]
  have hguard : ¬(m.cursor < 0 ∨ (m.items.length : Int) ≤ m.cursor) := by omega
  refine ⟨?_, ?_, ?_⟩
  · intro hexp hex henv
    obtain ⟨w, hw, hwi⟩ := hex
    obtain ⟨v, hfind, hpv⟩ :=
      find_some_of_mem (fun x => x.index == (d : Int)) s.windows w hw (by simp [hwi])
    have hvi : v.index = (d : Int) := by simpa using hpv
    rw [hstep]
    simp only [handleJump, if_neg hguard, hget, hsget, hexp, hfind, hvi, henv, if_true]
  · intro hno s2 hs2get henv2
    have hlen : d - 1 < m.sessions.length := by
      cases hh : m.sessions.get? (d - 1) with
      | none => rw [hs2get] at hh; exact absurd hh (by simp)
      | some x =>
        by_contra hcon
        rw [List.get?_eq_none.mpr (by omega)] at hh
        exact absurd hh (by simp)
    have hg2 : 0 ≤ (d : Int) - 1 ∧ (d : Int) - 1 < (m.sessions.length : Int) := by omega
    have htn : ((d : Int) - 1).toNat = d - 1 := by omega
    have hjs : jumpToSession m env d = (m, [Eff.switch s2.name], [TCmd.quit]) := by
      simp only [jumpToSession, if_pos hg2, htn, hs2get, henv2]
    rw [hstep]
    rcases hno with hexpf | hall
    · simp only [handleJump, if_neg hguard, hget, hsget, hexpf]
      exact hjs
    · have hfind0 : s.windows.find? (fun x => x.index == (d : Int)) = none :=
        List.find?_eq_none.mpr (fun x hx => by simp [hall x hx])
      simp only [handleJump, if_neg hguard, hget, hsget, hfind0]
      split
      · exact hjs
      · exact hjs
  · intro hno hs2none
    have hlen : m.sessions.length ≤ d - 1 := by
      by_contra hcon
      cases hh : m.sessions.get? (d - 1) with
      | none => rw [List.get?_eq_none] at hh; omega
      | some x => rw [hs2none] at hh; exact absurd hh (by simp)
    have hg2 : ¬(0 ≤ (d : Int) - 1 ∧ (d : Int) - 1 < (m.sessions.length : Int)) := by omega
    have hjs : jumpToSession m env d = (m, [], []) := by
      simp only [jumpToSession, if_neg hg2]
    rw [hstep]
    rcases hno with hexpf | hall
    · simp only [handleJump, if_neg hguard, hget, hsget, hexpf]
      exact hjs
    · have hfind0 : s.windows.find? (fun x => x.index == (d : Int)) = none :=
        List.find?_eq_none.mpr (fun x hx => by simp [hall x hx])
      simp only [handleJump, if_neg hguard, hget, hsget, hfind0]
      split
      · exact hjs
      · exact hjs

/-- Witness for C4, the jump-determinism scenario: an expanded session with
windows indexed 1, 3, 4 and the digit 3 switch to window 3 of that session,
not to a third top-level session. -/
theorem c4_jump_witness :
    step c4m (Ev.key (Key.jump 3)) envOk =
      (c4m, [Eff.switch (strBytes "alpha" ++ [58] ++ intBytes 3)], [TCmd.quit]) :=
  (c4_jump c4m envOk 3 ⟨true, 0, 0⟩ alphaExpanded rfl rfl (by decide) (by decide)
    (by decide) (by decide) (by decide)).1 rfl
    ⟨⟨3, strBytes "run"⟩, by decide, rfl⟩ rfl

/-- Claim C5 counterexample: in a consistent state (session a expanded with
one window, cursor on the empty collapsed session b), an expand whose window
fetch fails collapses every session but leaves the stale rows in place, so a
window row of the now-collapsed session a survives: the invariant does not
hold in the state left behind by the failure branch of expand. -/
theorem c5_counterexample :
    windowsConsistent c5m = true ∧
    windowsConsistent ((step c5m (Ev.key Key.expand) envFetchFail).1) = false := by
  decide

/-- Claim C5 (amended): the filter-and-expansion consistency invariant
(window rows only under an expanded, filter-passing parent) is preserved by
every event except an expand in Normal mode whose window fetch fails; that
branch can leave stale window rows under collapsed parents until the next
rebuild. -/
theorem c5_window_rows (m : Model) (ev : Ev) (env : Env)
    (h : windowsConsistent m = true)
    (hf : ev = Ev.key Key.expand → m.mode = Mode.normal → expandFails m env = false) :
    windowsConsistent (step m ev env).1 = true :=
  wc_step m ev env h hf

/-- Witness for the amended C5: a collapse event on the consistent state. -/
theorem c5_window_rows_witness :
    windowsConsistent ((step c5m (Ev.key Key.collapse) envOk).1) = true :=
  c5_window_rows c5m (Ev.key Key.collapse) envOk (by decide)
    (fun hk => absurd hk (by decide))

/-- Claim C6 counterexample: in Create mode with input "x", when the create
command succeeds but the subsequent switch fails, a create command was
issued, the picker does not quit (only a reload is scheduled) and the mode
stays Create, contradicting the claim that after a non-empty submit the mode
is Normal or the picker terminates. -/
theorem c6_counterexample :
    c6m.mode = Mode.create ∧ trimBytes c6m.input ≠ [] ∧
    (step c6m (Ev.key Key.enter) envSwitchFail).2.1 =
      [Eff.create (strBytes "x") [], Eff.switch (strBytes "x")] ∧
    (step c6m (Ev.key Key.enter) envSwitchFail).1.mode = Mode.create ∧
    (step c6m (Ev.key Key.enter) envSwitchFail).1.mode ≠ Mode.normal ∧
    (step c6m (Ev.key Key.enter) envSwitchFail).2.2 = [TCmd.loadSessions] := by
  decide

/-- Claim C6 (amended): submitting whitespace-only text keeps Create mode,
sets the validation message and issues no command; submitting non-empty
trimmed text issues a create command with the trimmed name; when create
fails, an error is surfaced, the mode returns to Normal and no switch is
issued; when create and switch succeed the picker quits; when create
succeeds but switch fails, an error is surfaced, a reload is scheduled and
the mode stays Create. -/
theorem c6_create_submit (m : Model) (env : Env) (hmode : m.mode = Mode.create) :
    (trimBytes m.input = [] →
      step m (Ev.key Key.enter) env =
        ({ m with message := strBytes "Session name cannot be empty", messageIsError := true },
         [], [])) ∧
    (∀ e, trimBytes m.input ≠ [] →
      env.createSession (trimBytes m.input) env.home = some e →
      step m (Ev.key Key.enter) env =
        ({ m with
            message := strBytes "Error: " ++ e,
            messageIsError := true,
            mode := Mode.normal },
         [Eff.create (trimBytes m.input) env.home], [])) ∧
    (trimBytes m.input ≠ [] →
      env.createSession (trimBytes m.input) env.home = none →
      env.switchClient (trimBytes m.input) = none →
      step m (Ev.key Key.enter) env =
        (m, Eff.create (trimBytes m.input) env.home ::
             (if env.layoutReady then [Eff.layout (trimBytes m.input) env.home] else []) ++
             [Eff.switch (trimBytes m.input)],
         [TCmd.quit])) ∧
    (∀ e, trimBytes m.input ≠ [] →
      env.createSession (trimBytes m.input) env.home = none →
      env.switchClient (trimBytes m.input) = some e →
      (step m (Ev.key Key.enter) env).1.mode = Mode.create ∧
      (step m (Ev.key Key.enter) env).1.message =
        strBytes "Created but failed to switch: " ++ e ∧
      (step m (Ev.key Key.enter) env).2.2 = [TCmd.loadSessions]) := by
  have hstep : step m (Ev.key Key.enter) env = handleCreateMode m env Key.enter := by
    simp [step, hmode]
  refine ⟨?_, ?_, ?_, ?_⟩
  · intro ht
    rw [hstep]
    simp [handleCreateMode, ht]
  · intro e ht hc
    rw [hstep]
    simp [handleCreateMode, ht, createSessionM, hc]
  · intro ht hc hsw
    rw [hstep]
    simp [handleCreateMode, ht, createSessionM, hc, hsw]
  · intro e ht hc hsw
    rw [hstep]
    simp [handleCreateMode, ht, createSessionM, hc, hsw, hmode]

/-- Witness for the amended C6: the whitespace-only submit scenario. -/
theorem c6_create_submit_witness :
    step c6empty (Ev.key Key.enter) envOk =
      ({ c6empty with
          message := strBytes "Session name cannot be empty",
          messageIsError := true },
       [], []) :=
  (c6_create_submit c6empty envOk rfl).1 (by decide)

/-- Claim C7 counterexample: with the filter "a" over alpha, beta, gamma,
the digit keystroke "1" issues no command at all (no switch, no quit): the
digit is appended to the filter, which becomes "a1". -/
theorem c7_counterexample :
    c7m.filter = strBytes "a" ∧
    visibleNames c7m = [strBytes "alpha", strBytes "beta", strBytes "gamma"] ∧
    (step c7m (Ev.key (Key.jump 1)) envOk).2.1 = [] ∧
    (step c7m (Ev.key (Key.jump 1)) envOk).2.2 = [] ∧
    (step c7m (Ev.key (Key.jump 1)) envOk).1.filter = strBytes "a1" := by
  decide

/-- Claim C7 (amended): with the filter "a" the visible top-level order is
alpha, beta, gamma; but digits act as jumps only with an empty filter, so
pressing "1" in that state appends to the filter (making "a1") and issues no
command, while pressing "1" with an empty filter switches to alpha and
quits. -/
theorem c7_filter_scenario :
    visibleNames c7m = [strBytes "alpha", strBytes "beta", strBytes "gamma"] ∧
    (step c7m (Ev.key (Key.jump 1)) envOk).1.filter = strBytes "a1" ∧
    (step c7m (Ev.key (Key.jump 1)) envOk).2.1 = [] ∧
    step c7e (Ev.key (Key.jump 1)) envOk =
      (c7e, [Eff.switch (strBytes "alpha")], [TCmd.quit]) := by
  decide

/-- Claim C8 counterexample: the confirm handler never consults killTarget:
in ConfirmKill mode with an empty killTarget but a valid cursor on the row
of alpha, confirming issues a kill command for alpha, so confirming with no
captured target is not a no-op. -/
theorem c8_counterexample :
    c8m.mode = Mode.confirmKill ∧ c8m.killTarget = [] ∧
    (step c8m (Ev.key Key.confirm) envOk).2.1 = [Eff.killSession (strBytes "alpha")] := by
  decide

/-- Claim C8 (amended): collapsing an already-collapsed session (cursor on
its row, items in sync with the current sessions and filter) leaves the
whole state unchanged and issues no command; confirming a kill is a no-op
issuing no command exactly when the cursor is out of range of the row list —
killTarget is never consulted, so an empty killTarget with a valid cursor
still kills the row under the cursor. -/
theorem c8_noop_actions :
    (∀ (m : Model) (env : Env) (it : Item) (s : Session),
      m.mode = Mode.normal →
      m.items = buildItems m.sessions m.filter →
      0 ≤ m.cursor → m.cursor < (m.items.length : Int) →
      m.items.get? m.cursor.toNat = some it → it.isSession = true →
      m.sessions.get? it.sessionIndex = some s → s.expanded = false →
      step m (Ev.key Key.collapse) env = (m, [], [])) ∧
    (∀ (m : Model) (env : Env), m.mode = Mode.confirmKill →
      ((m.items.length : Int) ≤ m.cursor ∨ m.cursor < 0) →
      step m (Ev.key Key.confirm) env = (m, [], [])) := by
  constructor
  · intro m env it s hmode hsync h0 h1 hget hs hsget hexp
    have hstep : step m (Ev.key Key.collapse) env = (collapseCurrent m, [], []) := by
      simp [step, hmode, handleNormalMode]
    have hguard : ¬(m.cursor < 0 ∨ (m.items.length : Int) ≤ m.cursor) := by omega
    have hsa : setExpandedFalse m.sessions it.sessionIndex = m.sessions := by
      unfold setExpandedFalse
      simp only [hsget]
      have hfix : { s with expanded := false } = s := by
        cases s
        simp_all
      rw [hfix]
      exact set_get_self m.sessions it.sessionIndex s hsget
    have hreb : rebuild m = m := by
      unfold rebuild
      rw [← hsync]
      have hcl : clampCursor m.cursor m.items.length = m.cursor := by
        rw [clampCursor_eq]
        omega
      rw [hcl]
    have hcol : collapseCurrent m = m := by
      simp only [collapseCurrent, if_neg hguard, hget, hs, if_true, hsa]
      exact hreb
    rw [hstep, hcol]
  · intro m env hmode hoor
    have hstep : step m (Ev.key Key.confirm) env = killCurrent m env := by
      simp [step, hmode, handleConfirmKillMode]
    have hguard : m.cursor < 0 ∨ (m.items.length : Int) ≤ m.cursor := by omega
    rw [hstep]
    simp [killCurrent, hguard]

/-- Witness for the amended C8: collapsing the already-collapsed session
alpha leaves the state untouched and issues nothing. -/
theorem c8_noop_actions_witness :
    step c8w (Ev.key Key.collapse) envOk = (c8w, [], []) :=
  c8_noop_actions.1 c8w envOk ⟨true, 0, 0⟩ alphaSession rfl (by decide) (by decide)
    (by decide) (by decide) (by decide) (by decide) (by decide)

/-- Claim C9 counterexample: with the filter holding the two UTF-8 bytes of
the single character at code point 233, backspace leaves the first byte
behind instead of removing the character, so it does not remove exactly the
last character. -/
theorem c9_counterexample :
    c9m.mode = Mode.normal ∧
    c9m.filter = utf8Str [eAcute] ∧
    (step c9m (Ev.key Key.backspace) envOk).1.filter = [195] ∧
    (step c9m (Ev.key Key.backspace) envOk).1.filter ≠ utf8Str ([eAcute].dropLast) := by
  decide

/-- Claim C9 (amended): in Normal mode a printable keystroke appends its
UTF-8 bytes to the filter and rebuilds; backspace removes exactly the last
byte of the filter and rebuilds (for ASCII-only filters this is the last
character); backspace on an empty filter is a no-op. -/
theorem c9_filter_editing (m : Model) (env : Env) (bs : GoStr)
    (hmode : m.mode = Mode.normal) :
    ((step m (Ev.key (Key.runes bs)) env).1.filter = m.filter ++ bs ∧
     (step m (Ev.key (Key.runes bs)) env).1.items = buildItems m.sessions (m.filter ++ bs)) ∧
    (m.filter ≠ [] →
      (step m (Ev.key Key.backspace) env).1.filter = m.filter.dropLast ∧
      (step m (Ev.key Key.backspace) env).1.items =
        buildItems m.sessions m.filter.dropLast) ∧
    (m.filter = [] → step m (Ev.key Key.backspace) env = (m, [], [])) ∧
    (∀ cs : List Char, (∀ c ∈ cs, c.toNat < 128) →
      (utf8Str cs).dropLast = utf8Str cs.dropLast) := by
  refine ⟨?_, ?_, ?_, utf8Str_ascii_dropLast⟩
  · have hstep : step m (Ev.key (Key.runes bs)) env =
        (rebuild { m with filter := m.filter ++ bs }, [], []) := by
      simp [step, hmode, handleNormalMode]
    rw [hstep]
    exact ⟨rfl, rfl⟩
  · intro hne
    have hl : 0 < m.filter.length := List.length_pos.mpr hne
    have hstep : step m (Ev.key Key.backspace) env =
        (rebuild { m with filter := m.filter.dropLast }, [], []) := by
      simp [step, hmode, handleNormalMode, hl]
    rw [hstep]
    exact ⟨rfl, rfl⟩
  · intro hf
    simp [step, hmode, handleNormalMode, hf]

/-- Witness for the amended C9: typing "b" onto the filter "a" and a
backspace on "a". -/
theorem c9_filter_editing_witness :
    (step c7m (Ev.key (Key.runes (strBytes "b"))) envOk).1.filter =
      strBytes "a" ++ strBytes "b" ∧
    (step c7m (Ev.key Key.backspace) envOk).1.filter = (strBytes "a").dropLast :=
  ⟨((c9_filter_editing c7m envOk (strBytes "b") rfl).1).1,
   ((c9_filter_editing c7m envOk [] rfl).2.1 (by decide)).1⟩

/-- Claim C10: the kill issued on confirm is resolved from the row under the
cursor at confirmation time (killTarget is not consulted): a session row
kills that session, a window row kills that window; consequently, in the
concrete run where a kill of beta is requested, a refresh removing beta then
arrives, and the user confirms, the session actually killed is alpha while
the confirmation message still names beta. -/
theorem c10_kill_from_cursor :
    (∀ (m : Model) (env : Env) (it : Item) (s : Session),
      m.mode = Mode.confirmKill →
      0 ≤ m.cursor → m.cursor < (m.items.length : Int) →
      m.items.get? m.cursor.toNat = some it → it.isSession = true →
      m.sessions.get? it.sessionIndex = some s →
      (step m (Ev.key Key.confirm) env).2.1 = [Eff.killSession s.name]) ∧
    (∀ (m : Model) (env : Env) (it : Item) (s : Session) (w : Window),
      m.mode = Mode.confirmKill →
      0 ≤ m.cursor → m.cursor < (m.items.length : Int) →
      m.items.get? m.cursor.toNat = some it → it.isSession = false →
      m.sessions.get? it.sessionIndex = some s →
      s.windows.get? it.windowIndex = some w →
      (step m (Ev.key Key.confirm) env).2.1 = [Eff.killWindow s.name w.index]) ∧
    (c10s2.mode = Mode.confirmKill ∧ c10s2.killTarget = strBytes "beta" ∧
     (step c10s2 (Ev.key Key.confirm) envOk).2.1 = [Eff.killSession (strBytes "alpha")] ∧
     strBytes "alpha" ≠ strBytes "beta") := by
  refine ⟨?_, ?_, by decide⟩
  · intro m env it s hmode h0 h1 hget hs hsget
    have hstep : step m (Ev.key Key.confirm) env = killCurrent m env := by
      simp [step, hmode, handleConfirmKillMode]
    have hguard : ¬(m.cursor < 0 ∨ (m.items.length : Int) ≤ m.cursor) := by omega
    rw [hstep]
    simp only [killCurrent, if_neg hguard, hget, hsget, hs, if_true]
    cases henv : env.killSession s.name <;> simp [henv]
  · intro m env it s w hmode h0 h1 hget hs hsget hwget
    have hstep : step m (Ev.key Key.confirm) env = killCurrent m env := by
      simp [step, hmode, handleConfirmKillMode]
    have hguard : ¬(m.cursor < 0 ∨ (m.items.length : Int) ≤ m.cursor) := by omega
    have hsess : ¬(it.isSession = true) := by simp [hs]
    rw [hstep]
    simp only [killCurrent, if_neg hguard, hget, hsget, hs, hwget]
    cases henv : env.killWindow s.name w.index <;> simp [henv]

/-- Witness for C10: the confirm in the concrete divergence run kills the
session under the cursor. -/
theorem c10_kill_from_cursor_witness :
    (step c10s2 (Ev.key Key.confirm) envOk).2.1 = [Eff.killSession (strBytes "alpha")] :=
  c10_kill_from_cursor.1 c10s2 envOk ⟨true, 0, 0⟩
    { name := strBytes "alpha", lastActivity := 0, expanded := false, windows := [] }
    (by decide) (by decide) (by decide) (by decide) (by decide) (by decide)

end Tsm
